import Mathlib

set_option maxRecDepth 100000
set_option maxHeartbeats 1000000

/- Verification of the quickbeam storage engine (src/src/lib.rs and
   src/src/attempt1.rs) against its design document.  The code is
   shallowly embedded: the in-memory page directory (a HashMap from page
   number to Page) becomes an association list with unique keys, the
   backing file data.db becomes an optional byte list (none models a
   file on which every open, seek, read or write fails), and the
   external bincode codec becomes a parameter
   d : List Nat -> Option (List Row), where none models a decode
   failure, which the code unwraps. -/

/-- Shared row type, defined identically in lib.rs and attempt1.rs: a
32-bit integer id and a name string.  The id is modelled as an integer;
no claim performs arithmetic on ids that could overflow an i32. -/
structure Row where
  id : Int
  name : String
deriving DecidableEq, Repr

namespace Quickbeam

/-- Constant PAGE_SIZE = 4096 (lib.rs line 9). -/
def PAGE_SIZE : Nat := 4096

/-- The value of std::mem::size_of for Row on the 64-bit target the
crate compiles for: a String is three 8-byte words (pointer, capacity,
length) and the 4-byte id pads the struct to 32 bytes.  This is the in
memory size of the struct, not an on-disk encoded size. -/
def rowMemSize : Nat := 32

/-- Constant ROWS_PER_PAGE = PAGE_SIZE / size_of Row (lib.rs line 10). -/
def ROWS_PER_PAGE : Nat := PAGE_SIZE / rowMemSize

/-- The derived Default value of Row: id 0 and the empty string. -/
def defaultRow : Row := ⟨0, ""⟩

/-- Size in bytes of one Row under the codec lib.rs actually calls (the
default bincode serialize configuration): a 4-byte little-endian i32, an
8-byte length prefix, then the UTF-8 bytes of the name.  The size
depends on the name, so there is no fixed encoded row size. -/
def bincodeRowSize (r : Row) : Nat := 4 + 8 + r.name.utf8ByteSize

/-- Struct Page of lib.rs (lines 18-21): just a vector of rows.  There
is no node tag, no parent link and no next_leaf field anywhere in the
data model of either source file. -/
structure Page where
  rows : List Row
deriving DecidableEq, Repr

/-- Struct Pager of lib.rs (lines 34-37): the in-memory directory
mapping page number to Page (a HashMap, embedded as an association list
with unique keys). -/
structure Pager where
  pages : List (Nat × Page)
deriving DecidableEq, Repr

/-- State of the process: the pager directory plus the backing file
data.db, a process-global byte sequence; none models a file on which
every open, seek, read or write fails with an I/O error. -/
structure DB where
  pager : Pager
  file : Option (List Nat)
deriving DecidableEq, Repr

/-- HashMap lookup on the association-list embedding of the directory. -/
def pagesLookup : List (Nat × Page) → Nat → Option Page
  | [], _ => none
  | (m, p) :: t, n => if m = n then some p else pagesLookup t n

/-- HashMap insert: replace the entry when the key is present, else
append a fresh entry. -/
def pagesInsert (n : Nat) (p : Page) : List (Nat × Page) → List (Nat × Page)
  | [] => [(n, p)]
  | (m, q) :: t => if m = n then (n, p) :: t else (m, q) :: pagesInsert n p t

/-- Outcome of a pager operation: ok models io::Result::Ok, ioErr models
io::Result::Err carrying an I/O failure, and aborted models a process
abort through unwrap or expect on a failed decode or page load. -/
inductive Res (α : Type) where
  | ok : α → Res α
  | ioErr : Res α
  | aborted : Res α
deriving DecidableEq, Repr

/-- Page::from_bytes (lib.rs lines 28-32) unwraps the codec result, so a
decode failure (d b = none) aborts the process instead of producing an
error value; on success the decoded rows become a Page. -/
def from_bytes (d : List Nat → Option (List Row)) (b : List Nat) : Option Page :=
  (d b).map Page.mk

/-- The set_len extension performed by get_page (lib.rs lines 57-59): a
file shorter than (n+1)*4096 bytes is extended with zero bytes to
exactly that length, otherwise it is left unchanged. -/
def extendFile (f : List Nat) (n : Nat) : List Nat :=
  if f.length < (n + 1) * PAGE_SIZE then
    f ++ List.replicate ((n + 1) * PAGE_SIZE - f.length) 0
  else f

/-- The 4096-byte buffer read_exact fills from offset n*4096 of the
already extended file (lib.rs lines 61-62). -/
def readBuf (f : List Nat) (n : Nat) : List Nat :=
  ((extendFile f n).drop (n * PAGE_SIZE)).take PAGE_SIZE

/-- Pager::get_page (lib.rs lines 46-67).  A cached page is returned as
is.  Otherwise the file is opened (an inaccessible backing file yields
an I/O error), extended with zeros when shorter than (n+1)*4096, the
4096 bytes at offset n*4096 are read and decoded via Page::from_bytes
(aborting on decode failure), and the page is inserted into the
directory and returned. -/
def get_page (d : List Nat → Option (List Row)) (db : DB) (n : Nat) :
    Res (Page × DB) :=
  match pagesLookup db.pager.pages n with
  | some p => .ok (p, db)
  | none =>
    match db.file with
    | none => .ioErr
    | some f =>
      match from_bytes d (readBuf f n) with
      | none => .aborted
      | some p => .ok (p, ⟨⟨pagesInsert n p db.pager.pages⟩, some (extendFile f n)⟩)

/-- Pager::insert_row_at (lib.rs lines 84-96): fetch the page (the
question-mark operator propagates an I/O error), compute the index
row_num % ROWS_PER_PAGE, resize the row vector with default rows when
the index is beyond its length, and overwrite the slot in place.  No
ordering is maintained and no split is performed. -/
def insert_row_at (d : List Nat → Option (List Row)) (db : DB)
    (page_num row_num : Nat) (row : Row) : Res DB :=
  match get_page d db page_num with
  | .ok (page, db1) =>
    let i := row_num % ROWS_PER_PAGE
    let rows0 := if page.rows.length ≤ i then
        page.rows ++ List.replicate (i + 1 - page.rows.length) defaultRow
      else page.rows
    .ok ⟨⟨pagesInsert page_num ⟨rows0.set i row⟩ db1.pager.pages⟩, db1.file⟩
  | .ioErr => .ioErr
  | .aborted => .aborted

/-- Pager::get_row_at (lib.rs lines 98-110): on a successful page fetch
return the row at index row_num % ROWS_PER_PAGE when it is in range,
else None; an I/O error from get_page is swallowed into Ok(None) with
the state unchanged by the arm matching Err.  An abort inside get_page
still aborts. -/
def get_row_at (d : List Nat → Option (List Row)) (db : DB)
    (page_num row_num : Nat) : Res (Option Row × DB) :=
  match get_page d db page_num with
  | .ok (page, db1) => .ok (page.rows.get? (row_num % ROWS_PER_PAGE), db1)
  | .ioErr => .ok (none, db)
  | .aborted => .aborted

/-- Inner loop of Pager::find: the first row of a row vector whose id
equals the key. -/
def rowFind (k : Int) : List Row → Option Row
  | [] => none
  | r :: t => if r.id = k then some r else rowFind k t

/-- Pager::find (lib.rs lines 113-122): iterate over every cached page
of the directory and return the first row whose id equals the key; no
page is read from disk and absence is reported as None. -/
def findInPages (k : Int) : List (Nat × Page) → Option Row
  | [] => none
  | (_, p) :: t =>
    match rowFind k p.rows with
    | some r => some r
    | none => findInPages k t

/-- Pager::find takes shared access to the pager and consults only the
pages field. -/
def Pager.find (pg : Pager) (k : Int) : Option Row :=
  findInPages k pg.pages

/-- Struct Cursor (lib.rs lines 138-143): a pager (the embedded DB also
carries the process-global backing file), a page number, a row number
and an end_of_table flag. -/
structure Cursor where
  db : DB
  page_num : Nat
  row_num : Nat
  end_of_table : Bool
deriving DecidableEq, Repr

/-- Cursor::new (lib.rs lines 146-155): page_num = row_num /
ROWS_PER_PAGE and end_of_table initialised to false.  No other place in
the source ever writes end_of_table. -/
def Cursor.new (db : DB) (row_num : Nat) : Cursor :=
  ⟨db, row_num / ROWS_PER_PAGE, row_num, false⟩

/-- Cursor::advance (lib.rs lines 157-168): increment row_num, fetch
page row_num / ROWS_PER_PAGE (expect aborts on an I/O error there) and
update page_num.  No branch leaves the cursor unchanged and nothing
sets end_of_table. -/
def Cursor.advance (d : List Nat → Option (List Row)) (c : Cursor) : Res Cursor :=
  let rn := c.row_num + 1
  let np := rn / ROWS_PER_PAGE
  match get_page d c.db np with
  | .ok (_, db1) => .ok ⟨db1, np, rn, c.end_of_table⟩
  | .ioErr => .aborted
  | .aborted => .aborted

/-- Cursor::insert (lib.rs lines 170-173): insert at page row_num /
ROWS_PER_PAGE; the io::Result of insert_row_at is bound to an unused
placeholder and dropped, so an I/O error leaves the cursor unchanged
and is invisible to the caller, while an abort still aborts. -/
def Cursor.insert (d : List Nat → Option (List Row)) (c : Cursor)
    (row : Row) : Res Cursor :=
  match insert_row_at d c.db (c.row_num / ROWS_PER_PAGE) c.row_num row with
  | .ok db1 => .ok ⟨db1, c.page_num, c.row_num, c.end_of_table⟩
  | .ioErr => .ok c
  | .aborted => .aborted

/-- Concrete codec instance used to evaluate the pager: bincode decodes
an all-zero 4096-byte page as the empty row vector (the leading u64
length prefix is zero) and fails on every other buffer this development
feeds it. -/
def d0 (b : List Nat) : Option (List Row) :=
  if b = List.replicate PAGE_SIZE 0 then some [] else none

/-- Fresh state: empty directory and an empty backing file. -/
def freshDB : DB := ⟨⟨[]⟩, some []⟩

/-- State whose backing file cannot be opened, read or written. -/
def brokenDB : DB := ⟨⟨[]⟩, none⟩

/-- Insert rows with ids 0, 1, ..., n-1 in order, each at the flat
position the tests of lib.rs use: insert_row_at (i / ROWS_PER_PAGE) i. -/
def insertRows (d : List Nat → Option (List Row)) (db : DB) : Nat → Res DB
  | 0 => .ok db
  | n + 1 =>
    match insertRows d db n with
    | .ok db1 => insert_row_at d db1 (n / ROWS_PER_PAGE) n ⟨Int.ofNat n, ""⟩
    | e => e

/-- The state after insertRows with the concrete codec, starting fresh. -/
def runInserts (n : Nat) : DB :=
  match insertRows d0 freshDB n with
  | .ok db => db
  | _ => freshDB

/-- The rows with ids 0, 1, ..., n-1 in ascending order. -/
def rowsUpTo (n : Nat) : List Row :=
  (List.range n).map fun i => ⟨Int.ofNat i, ""⟩

/-- The leaf ordering invariant stated by the design document: row ids
strictly ascending, hence no duplicates. -/
def rowsSortedById : List Row → Bool
  | [] => true
  | [_] => true
  | a :: b :: t => decide (a.id < b.id) && rowsSortedById (b :: t)

/-- A state whose only cached page holds one row, with the scan position
already past it: used to examine cursor behaviour past the last row. -/
def pastEndDB : DB := ⟨⟨[(0, ⟨[⟨1, "x"⟩]⟩)]⟩, some []⟩

end Quickbeam

namespace Attempt1

/-- Constant PAGE_SIZE of attempt1.rs (line 8); insert_row also uses it
as the per-page row capacity bound. -/
def PAGE_SIZE : Nat := 4096

/-- Struct Page of attempt1.rs (lines 88-92): a count and a row vector;
again no node tag, no parent link and no next_leaf. -/
structure Page where
  count : Nat
  rows : List Row
deriving DecidableEq, Repr

/-- Struct Pager of attempt1.rs (lines 21-25): a vector of optional
pages (the lock wrappers guard the same data; the embedding gives the
sequential semantics of the lock-protected operations) and a row
counter. -/
structure Pager where
  pages : List (Option Page)
  num_rows : Nat
deriving DecidableEq, Repr

/-- Pager::insert_row (attempt1.rs lines 46-77): page_num = num_rows /
PAGE_SIZE; push one fresh page when page_num is past the vector (an out
of range index afterwards would abort, modelled as none); push the row
when num_rows % PAGE_SIZE < PAGE_SIZE, which always holds, so the else
branch, an empty TODO placeholder for page splitting, is unreachable. -/
def insert_row (pg : Pager) (row : Row) : Option Pager :=
  let page_num := pg.num_rows / PAGE_SIZE
  let row_in := pg.num_rows % PAGE_SIZE
  let pages := if page_num < pg.pages.length then pg.pages
    else pg.pages ++ [some ⟨0, []⟩]
  match pages.get? page_num with
  | none => none
  | some none => some ⟨pages, pg.num_rows⟩
  | some (some p) =>
    if row_in < PAGE_SIZE then
      some ⟨pages.set page_num (some ⟨p.count, p.rows ++ [row]⟩), pg.num_rows + 1⟩
    else
      some ⟨pages, pg.num_rows⟩

end Attempt1

open Quickbeam

theorem pagesLookup_insert_self (n : Nat) (p : Page) (l : List (Nat × Page)) :
    pagesLookup (pagesInsert n p l) n = some p := by
  induction l with
  | nil => simp [pagesInsert, pagesLookup]
  | cons e t ih =>
    obtain ⟨m, q⟩ := e
    by_cases hm : m = n <;> simp [pagesInsert, pagesLookup, hm, ih]

theorem pagesLookup_insert_of_ne (n m : Nat) (hm : m ≠ n) (p : Page)
    (l : List (Nat × Page)) :
    pagesLookup (pagesInsert n p l) m = pagesLookup l m := by
  induction l with
  | nil => simp [pagesInsert, pagesLookup, Ne.symm hm]
  | cons e t ih =>
    obtain ⟨a, q⟩ := e
    by_cases ha : a = n
    · subst ha
      simp [pagesInsert, pagesLookup, Ne.symm hm]
    · simp [pagesInsert, pagesLookup, ha, ih]

theorem rowFind_id_eq (k : Int) (l : List Row) (r : Row)
    (h : rowFind k l = some r) : r.id = k := by
  induction l with
  | nil => simp [rowFind] at h
  | cons a t ih =>
    simp only [rowFind] at h
    by_cases ha : a.id = k
    · rw [if_pos ha] at h
      cases h
      exact ha
    · rw [if_neg ha] at h
      exact ih h

theorem rowFind_isSome_iff (k : Int) (l : List Row) :
    (rowFind k l).isSome = true ↔ ∃ r ∈ l, r.id = k := by
  induction l with
  | nil => simp [rowFind]
  | cons a t ih =>
    by_cases ha : a.id = k
    · simp [rowFind, ha]
    · simp only [rowFind, ha, if_false, ih, List.mem_cons]
      constructor
      · rintro ⟨r, hr, hk⟩
        exact ⟨r, Or.inr hr, hk⟩
      · rintro ⟨r, hr | hr, hk⟩
        · exact absurd (hr ▸ hk) ha
        · exact ⟨r, hr, hk⟩

theorem findInPages_id_eq (k : Int) (l : List (Nat × Page)) (r : Row)
    (h : findInPages k l = some r) : r.id = k := by
  induction l with
  | nil => simp [findInPages] at h
  | cons e t ih =>
    obtain ⟨m, p⟩ := e
    simp only [findInPages] at h
    cases hr : rowFind k p.rows with
    | some a =>
      rw [hr] at h
      cases h
      exact rowFind_id_eq k p.rows r hr
    | none =>
      rw [hr] at h
      exact ih h

theorem findInPages_isSome_iff (k : Int) (l : List (Nat × Page)) :
    (findInPages k l).isSome = true ↔ ∃ e ∈ l, ∃ r ∈ e.2.rows, r.id = k := by
  induction l with
  | nil => simp [findInPages]
  | cons e t ih =>
    obtain ⟨m, p⟩ := e
    simp only [findInPages]
    cases hr : rowFind k p.rows with
    | some a =>
      simp only [Option.isSome_some, true_iff]
      have : ∃ r ∈ p.rows, r.id = k := by
        rw [← rowFind_isSome_iff, hr]
        rfl
      exact ⟨(m, p), List.mem_cons_self _ _, this⟩
    | none =>
      rw [ih]
      constructor
      · rintro ⟨e, he, r, hrm, hk⟩
        exact ⟨e, List.mem_cons_of_mem _ he, r, hrm, hk⟩
      · rintro ⟨e, he, r, hrm, hk⟩
        rcases List.mem_cons.mp he with h1 | h1
        · subst h1
          have : (rowFind k p.rows).isSome = true :=
            (rowFind_isSome_iff k p.rows).mpr ⟨r, hrm, hk⟩
          rw [hr] at this
          cases this
        · exact ⟨e, h1, r, hrm, hk⟩

theorem findInPages_eq_none_iff (k : Int) (l : List (Nat × Page)) :
    findInPages k l = none ↔ ∀ e ∈ l, ∀ r ∈ e.2.rows, r.id ≠ k := by
  rw [← Option.not_isSome_iff_eq_none, findInPages_isSome_iff]
  push_neg
  rfl

theorem extendFile_length (f : List Nat) (n : Nat) :
    (extendFile f n).length = max f.length ((n + 1) * PAGE_SIZE) := by
  unfold extendFile
  split
  · rw [List.length_append, List.length_replicate]
    omega
  · omega

theorem extendFile_keeps_data (f : List Nat) (n i : Nat) (hi : i < f.length) :
    (extendFile f n).get? i = f.get? i := by
  unfold extendFile
  split
  · exact List.get?_append hi
  · rfl

theorem readBuf_length (f : List Nat) (n : Nat) :
    (readBuf f n).length = PAGE_SIZE := by
  unfold readBuf
  rw [List.length_take, List.length_drop, extendFile_length, Nat.succ_mul]
  omega

theorem extendFile_zeros (k n : Nat) :
    extendFile (List.replicate k 0) n
      = List.replicate (max k ((n + 1) * PAGE_SIZE)) 0 := by
  unfold extendFile
  rw [List.length_replicate]
  split
  · rw [← List.replicate_add]
    congr 1
    omega
  · congr 1
    omega

theorem readBuf_zeros (k n : Nat) :
    readBuf (List.replicate k 0) n = List.replicate PAGE_SIZE 0 := by
  unfold readBuf
  rw [extendFile_zeros, List.drop_replicate, List.take_replicate, Nat.succ_mul]
  congr 1
  omega

theorem d0_zeros : d0 (List.replicate PAGE_SIZE 0) = some [] := by
  unfold d0
  exact if_pos rfl

theorem get_page_cached (d : List Nat → Option (List Row)) (db : DB) (n : Nat)
    (p : Page) (h : pagesLookup db.pager.pages n = some p) :
    get_page d db n = .ok (p, db) := by
  unfold get_page
  rw [h]

theorem get_page_load (d : List Nat → Option (List Row))
    (pages : List (Nat × Page)) (f : List Nat) (n : Nat) (rows : List Row)
    (h : pagesLookup pages n = none) (hd : d (readBuf f n) = some rows) :
    get_page d ⟨⟨pages⟩, some f⟩ n
      = .ok (⟨rows⟩, ⟨⟨pagesInsert n ⟨rows⟩ pages⟩, some (extendFile f n)⟩) := by
  simp [get_page, from_bytes, h, hd]

theorem get_page_io_error (d : List Nat → Option (List Row))
    (pages : List (Nat × Page)) (n : Nat) (h : pagesLookup pages n = none) :
    get_page d ⟨⟨pages⟩, none⟩ n = .ioErr := by
  simp [get_page, h]

theorem get_page_decode_failure (d : List Nat → Option (List Row))
    (pages : List (Nat × Page)) (f : List Nat) (n : Nat)
    (h : pagesLookup pages n = none) (hd : d (readBuf f n) = none) :
    get_page d ⟨⟨pages⟩, some f⟩ n = .aborted := by
  simp [get_page, from_bytes, h, hd]

theorem get_page_zeros (pages : List (Nat × Page)) (k n : Nat)
    (h : pagesLookup pages n = none) :
    get_page d0 ⟨⟨pages⟩, some (List.replicate k 0)⟩ n
      = .ok (⟨[]⟩, ⟨⟨pagesInsert n ⟨[]⟩ pages⟩,
          some (List.replicate (max k ((n + 1) * PAGE_SIZE)) 0)⟩) := by
  rw [get_page_load d0 pages _ n [] h (by rw [readBuf_zeros]; exact d0_zeros),
    extendFile_zeros]

theorem rowsUpTo_length (n : Nat) : (rowsUpTo n).length = n := by
  simp [rowsUpTo]

theorem rowsUpTo_succ (n : Nat) :
    rowsUpTo (n + 1) = rowsUpTo n ++ [⟨Int.ofNat n, ""⟩] := by
  simp [rowsUpTo, List.range_succ]

theorem set_append_singleton {α : Type} (l : List α) (a b : α) :
    (l ++ [a]).set l.length b = l ++ [b] := by
  induction l with
  | nil => rfl
  | cons x t ih => simp [List.set, ih]

theorem readBuf_get? (f : List Nat) (n j : Nat) (hj : j < PAGE_SIZE) :
    (readBuf f n).get? j = (extendFile f n).get? (n * PAGE_SIZE + j) := by
  unfold readBuf
  rw [List.get?_take hj, List.get?_drop]

theorem rowsUpTo_mem (i n : Nat) (h : i < n) :
    (⟨Int.ofNat i, ""⟩ : Row) ∈ rowsUpTo n := by
  simp only [rowsUpTo, List.mem_map]
  exact ⟨i, List.mem_range.mpr h, rfl⟩

theorem rpp_pos : 0 < ROWS_PER_PAGE := by
  norm_num [ROWS_PER_PAGE, rowMemSize, PAGE_SIZE]

theorem insertRows_fill (m : Nat) (h1 : 1 ≤ m) (h2 : m ≤ ROWS_PER_PAGE) :
    insertRows d0 freshDB m
      = .ok ⟨⟨[(0, ⟨rowsUpTo m⟩)]⟩, some (List.replicate PAGE_SIZE 0)⟩ := by
  induction m with
  | zero => omega
  | succ m ih =>
    rcases Nat.eq_zero_or_pos m with hm | hm
    · subst hm
      rw [show freshDB = ⟨⟨[]⟩, some (List.replicate 0 0)⟩ from rfl]
      simp only [insertRows, insert_row_at, Nat.zero_div, Nat.zero_mod,
        get_page_zeros ([]) 0 0 rfl]
      simp [pagesInsert, List.set, defaultRow, rowsUpTo, List.range_succ]
    · have hmlt : m < ROWS_PER_PAGE := by omega
      have ihh := ih hm (by omega)
      simp only [insertRows, ihh, Nat.div_eq_of_lt hmlt, Nat.mod_eq_of_lt hmlt,
        insert_row_at]
      rw [get_page_cached d0
        ⟨⟨[(0, ⟨rowsUpTo m⟩)]⟩, some (List.replicate PAGE_SIZE 0)⟩
        0 ⟨rowsUpTo m⟩ (by simp [pagesLookup])]
      simp only [rowsUpTo_length, le_refl, if_pos,
        show m + 1 - m = 1 from by omega, List.replicate_one]
      rw [show (rowsUpTo m ++ [defaultRow]).set m ⟨Int.ofNat m, ""⟩
          = (rowsUpTo m ++ [defaultRow]).set (rowsUpTo m).length ⟨Int.ofNat m, ""⟩
        from by rw [rowsUpTo_length]]
      rw [set_append_singleton]
      simp [pagesInsert, rowsUpTo_succ]

theorem insertRows_overflow :
    insertRows d0 freshDB (ROWS_PER_PAGE + 1)
      = .ok ⟨⟨[(0, ⟨rowsUpTo ROWS_PER_PAGE⟩),
                (1, ⟨[⟨Int.ofNat ROWS_PER_PAGE, ""⟩]⟩)]⟩,
          some (List.replicate (2 * PAGE_SIZE) 0)⟩ := by
  have h128 := insertRows_fill ROWS_PER_PAGE rpp_pos (le_refl _)
  rw [insertRows, h128]
  simp only [Nat.div_self rpp_pos, Nat.mod_self, insert_row_at]
  rw [get_page_zeros [(0, ⟨rowsUpTo ROWS_PER_PAGE⟩)] PAGE_SIZE 1
    (by simp [pagesLookup])]
  simp [pagesInsert, List.set, defaultRow,
    show max PAGE_SIZE ((1 + 1) * PAGE_SIZE) = 2 * PAGE_SIZE from by
      norm_num [PAGE_SIZE]]

/-- Claim C1, settled against the code at the failing input.  Inserting
ROWS_PER_PAGE + 1 distinct keys (ids 0..ROWS_PER_PAGE) into the fresh
state leaves the directory holding two flat row-vector pages: page 0
with rows 0..ROWS_PER_PAGE-1 and page 1 with the single overflow row.
Every inserted key is still retrievable, but there is no split: the data
model has no Internal node, no children, no routing keys and no
next_leaf field at all, so the root cannot become Internal.  In
attempt1.rs, reaching the capacity boundary likewise just appends one
fresh flat page (its split branch is an empty TODO). -/
theorem c1_no_split_no_internal_node :
    insertRows d0 freshDB (ROWS_PER_PAGE + 1)
      = .ok ⟨⟨[(0, ⟨rowsUpTo ROWS_PER_PAGE⟩),
                (1, ⟨[⟨Int.ofNat ROWS_PER_PAGE, ""⟩]⟩)]⟩,
          some (List.replicate (2 * PAGE_SIZE) 0)⟩ ∧
    (∀ i : Nat, i < ROWS_PER_PAGE + 1 →
      ∃ r, Pager.find ⟨[(0, ⟨rowsUpTo ROWS_PER_PAGE⟩),
            (1, ⟨[⟨Int.ofNat ROWS_PER_PAGE, ""⟩]⟩)]⟩ (Int.ofNat i) = some r
        ∧ r.id = Int.ofNat i) ∧
    Attempt1.insert_row ⟨[some ⟨0, []⟩], 4096⟩ ⟨7, ""⟩
      = some ⟨[some ⟨0, []⟩, some ⟨0, [⟨7, ""⟩]⟩], 4097⟩ := by
  refine ⟨insertRows_overflow, ?_, rfl⟩
  intro i hi
  have hsome : (Pager.find ⟨[(0, ⟨rowsUpTo ROWS_PER_PAGE⟩),
      (1, ⟨[⟨Int.ofNat ROWS_PER_PAGE, ""⟩]⟩)]⟩ (Int.ofNat i)).isSome = true := by
    apply (findInPages_isSome_iff _ _).mpr
    rcases Nat.lt_or_ge i ROWS_PER_PAGE with hlt | hge
    · exact ⟨(0, ⟨rowsUpTo ROWS_PER_PAGE⟩), by simp,
        ⟨Int.ofNat i, ""⟩, rowsUpTo_mem i ROWS_PER_PAGE hlt, rfl⟩
    · have : i = ROWS_PER_PAGE := by omega
      subst this
      exact ⟨(1, ⟨[⟨Int.ofNat ROWS_PER_PAGE, ""⟩]⟩), by simp,
        ⟨Int.ofNat ROWS_PER_PAGE, ""⟩, by simp, rfl⟩
  obtain ⟨r, hr⟩ := Option.isSome_iff_exists.mp hsome
  exact ⟨r, hr, findInPages_id_eq _ _ r hr⟩

theorem c1_no_split_no_internal_node_witness :
    (128 < ROWS_PER_PAGE + 1) ∧
    ∃ r, Pager.find ⟨[(0, ⟨rowsUpTo ROWS_PER_PAGE⟩),
          (1, ⟨[⟨Int.ofNat ROWS_PER_PAGE, ""⟩]⟩)]⟩ (Int.ofNat 128) = some r
      ∧ r.id = Int.ofNat 128 :=
  ⟨by norm_num [ROWS_PER_PAGE, rowMemSize, PAGE_SIZE],
    c1_no_split_no_internal_node.2.1 128
      (by norm_num [ROWS_PER_PAGE, rowMemSize, PAGE_SIZE])⟩

/-- A state whose page 0 is already cached and empty: used as a concrete
starting state for insert sequences. -/
def seededDB : DB := ⟨⟨[(0, ⟨[]⟩)]⟩, some []⟩

/-- Claim C2, settled against the code at a failing input.  Inserting id
5 and then id 3 leaves page 0 holding the rows in slot order [5, 3],
violating the strictly-ascending ordering invariant; attempt1.rs stores
the same arrival order.  Neither file sorts rows on insert and neither
has a next_leaf chain to keep ordered. -/
theorem c2_rows_not_sorted :
    (match insert_row_at d0 seededDB 0 0 ⟨5, ""⟩ with
      | .ok db1 => insert_row_at d0 db1 0 1 ⟨3, ""⟩
      | e => e)
      = .ok ⟨⟨[(0, ⟨[⟨5, ""⟩, ⟨3, ""⟩]⟩)]⟩, some []⟩ ∧
    rowsSortedById [⟨5, ""⟩, ⟨3, ""⟩] = false ∧
    (match Attempt1.insert_row ⟨[], 0⟩ ⟨5, ""⟩ with
      | some pg => Attempt1.insert_row pg ⟨3, ""⟩
      | none => none)
      = some ⟨[some ⟨0, [⟨5, ""⟩, ⟨3, ""⟩]⟩], 2⟩ :=
  ⟨rfl, rfl, rfl⟩

/-- Claim C3: Pager::find returns a row only on an exact id match — any
returned row carries the requested key as its id — and when no cached
row has that id the result is None: absence is an empty result, not an
error value and not a row with a different id. -/
theorem c3_get_exact_match_or_absent (pg : Pager) (k : Int) :
    (∀ r, Pager.find pg k = some r → r.id = k) ∧
    (Pager.find pg k = none ↔ ∀ e ∈ pg.pages, ∀ r ∈ e.2.rows, r.id ≠ k) :=
  ⟨fun r h => findInPages_id_eq k pg.pages r h,
   findInPages_eq_none_iff k pg.pages⟩

theorem c3_get_exact_match_or_absent_witness :
    ((⟨7, "x"⟩ : Row).id = 7) ∧
    (Pager.find ⟨[(0, ⟨[]⟩)]⟩ 7 = none) :=
  ⟨(c3_get_exact_match_or_absent ⟨[(0, ⟨[⟨7, "x"⟩]⟩)]⟩ 7).1 ⟨7, "x"⟩ rfl,
   (c3_get_exact_match_or_absent ⟨[(0, ⟨[]⟩)]⟩ 7).2.mpr (by simp)⟩

/-- Claim C10: Pager::find consults only the in-memory directory.  Its
result is a function of the cached pages alone — states with equal
directories but different backing files agree — it succeeds exactly when
some cached page holds a row with the requested id, and any returned row
has that id; a key present only in unloaded pages on disk therefore
yields None. -/
theorem c10_find_reads_only_cache (k : Int) :
    (∀ a b : DB, a.pager = b.pager → Pager.find a.pager k = Pager.find b.pager k) ∧
    (∀ db : DB, ((Pager.find db.pager k).isSome = true
      ↔ ∃ e ∈ db.pager.pages, ∃ r ∈ e.2.rows, r.id = k)) ∧
    (∀ db : DB, ∀ r, Pager.find db.pager k = some r → r.id = k) :=
  ⟨fun a b h => by rw [h],
   fun db => findInPages_isSome_iff k db.pager.pages,
   fun db r h => findInPages_id_eq k db.pager.pages r h⟩

theorem c10_find_reads_only_cache_witness :
    ((⟨⟨[(0, ⟨[⟨7, "x"⟩]⟩)]⟩, some (List.replicate 4 1)⟩ : DB).pager
      = (⟨⟨[(0, ⟨[⟨7, "x"⟩]⟩)]⟩, none⟩ : DB).pager) ∧
    (Pager.find (⟨⟨[(0, ⟨[⟨7, "x"⟩]⟩)]⟩, some (List.replicate 4 1)⟩ : DB).pager 7
      = Pager.find (⟨⟨[(0, ⟨[⟨7, "x"⟩]⟩)]⟩, none⟩ : DB).pager 7) ∧
    (Pager.find (⟨⟨[(0, ⟨[⟨7, "x"⟩]⟩)]⟩, none⟩ : DB).pager 7).isSome = true :=
  ⟨rfl, (c10_find_reads_only_cache 7).1 _ _ rfl,
   ((c10_find_reads_only_cache 7).2.1 _).mpr
     ⟨(0, ⟨[⟨7, "x"⟩]⟩), by simp, ⟨7, "x"⟩, by simp, rfl⟩⟩

/-- A degenerate codec instance that decodes every buffer as the empty
row vector; used to exercise the page-load path on concrete states. -/
def dEmpty : List Nat → Option (List Row) := fun _ => some []

/-- Claim C4: get_page returns a cached page directly, with the state
untouched; on a miss with an accessible file it extends the file with
zero bytes to length (n+1)*4096 when shorter (preserving all existing
bytes), reads exactly the 4096 bytes at offset n*4096, decodes them,
inserts the resulting page into the directory without disturbing other
entries, and returns it; the entry is then cached, so the next call
returns the same page with no further state change. -/
theorem c4_get_page_spec (d : List Nat → Option (List Row))
    (pages : List (Nat × Page)) (f : List Nat) (n : Nat) :
    (∀ p, pagesLookup pages n = some p →
      get_page d ⟨⟨pages⟩, some f⟩ n = .ok (p, ⟨⟨pages⟩, some f⟩)) ∧
    (∀ rows, pagesLookup pages n = none → d (readBuf f n) = some rows →
      get_page d ⟨⟨pages⟩, some f⟩ n
        = .ok (⟨rows⟩, ⟨⟨pagesInsert n ⟨rows⟩ pages⟩, some (extendFile f n)⟩) ∧
      (readBuf f n).length = PAGE_SIZE ∧
      (∀ j, j < PAGE_SIZE →
        (readBuf f n).get? j = (extendFile f n).get? (n * PAGE_SIZE + j)) ∧
      (extendFile f n).length = max f.length ((n + 1) * PAGE_SIZE) ∧
      (∀ i, i < f.length → (extendFile f n).get? i = f.get? i) ∧
      pagesLookup (pagesInsert n ⟨rows⟩ pages) n = some ⟨rows⟩ ∧
      (∀ m q, m ≠ n → pagesLookup pages m = some q →
        pagesLookup (pagesInsert n ⟨rows⟩ pages) m = some q) ∧
      get_page d ⟨⟨pagesInsert n ⟨rows⟩ pages⟩, some (extendFile f n)⟩ n
        = .ok (⟨rows⟩, ⟨⟨pagesInsert n ⟨rows⟩ pages⟩, some (extendFile f n)⟩)) := by
  constructor
  · intro p hp
    exact get_page_cached d _ n p hp
  · intro rows h1 h2
    exact ⟨get_page_load d pages f n rows h1 h2, readBuf_length f n,
      fun j hj => readBuf_get? f n j hj,
      extendFile_length f n, fun i hi => extendFile_keeps_data f n i hi,
      pagesLookup_insert_self n ⟨rows⟩ pages,
      fun m q hm hq => by
        rw [pagesLookup_insert_of_ne n m hm ⟨rows⟩ pages]; exact hq,
      get_page_cached d _ n ⟨rows⟩ (pagesLookup_insert_self n ⟨rows⟩ pages)⟩

theorem c4_get_page_spec_witness :
    pagesLookup [] 0 = none ∧
    dEmpty (readBuf [] 0) = some [] ∧
    pagesLookup [(5, (⟨[]⟩ : Page))] 5 = some ⟨[]⟩ ∧
    get_page dEmpty ⟨⟨[]⟩, some []⟩ 0
      = .ok (⟨[]⟩, ⟨⟨pagesInsert 0 ⟨[]⟩ []⟩, some (extendFile [] 0)⟩) ∧
    get_page dEmpty ⟨⟨pagesInsert 0 ⟨[]⟩ []⟩, some (extendFile [] 0)⟩ 0
      = .ok (⟨[]⟩, ⟨⟨pagesInsert 0 ⟨[]⟩ []⟩, some (extendFile [] 0)⟩) ∧
    get_page dEmpty ⟨⟨[(5, ⟨[]⟩)]⟩, some []⟩ 5
      = .ok (⟨[]⟩, ⟨⟨[(5, ⟨[]⟩)]⟩, some []⟩) :=
  ⟨rfl, rfl, rfl,
    ((c4_get_page_spec dEmpty [] [] 0).2 [] rfl rfl).1,
    ((c4_get_page_spec dEmpty [] [] 0).2 [] rfl rfl).2.2.2.2.2.2.2,
    (c4_get_page_spec dEmpty [(5, ⟨[]⟩)] [] 5).1 ⟨[]⟩ rfl⟩

/-- Claim C5 as stated is false on the code: with a backing file whose
every open, seek, read and write fails, get_row_at reports Ok(None) and
Cursor::insert reports plain success with the cursor unchanged — the
two operations the claim names do not surface the I/O failure to the
caller. -/
theorem c5_io_error_swallowed :
    get_row_at d0 brokenDB 0 0 = .ok (none, brokenDB) ∧
    get_row_at d0 brokenDB 0 0 ≠ .ioErr ∧
    Cursor.insert d0 (Cursor.new brokenDB 0) ⟨1, "x"⟩ = .ok (Cursor.new brokenDB 0) ∧
    Cursor.insert d0 (Cursor.new brokenDB 0) ⟨1, "x"⟩ ≠ .ioErr :=
  ⟨rfl, by simp [get_row_at, get_page, pagesLookup, brokenDB],
   rfl, by simp [Cursor.insert, insert_row_at, get_page, pagesLookup, brokenDB,
     Cursor.new]⟩

/-- Claim C5 (amended): an I/O failure on the backing file is propagated
as a recoverable error by get_page and insert_row_at, but get_row_at
converts the failed page load into Ok(None) with the state unchanged,
Cursor::insert drops the error and returns the cursor unchanged, and
Cursor::advance turns it into a process abort; no path retries the
operation. -/
theorem c5_error_propagation (d : List Nat → Option (List Row)) (db : DB)
    (n m : Nat) (row : Row)
    (hf : db.file = none) (hn : pagesLookup db.pager.pages n = none) :
    get_page d db n = .ioErr ∧
    insert_row_at d db n m row = .ioErr ∧
    get_row_at d db n m = .ok (none, db) ∧
    (∀ c : Cursor, c.db = db → c.row_num / ROWS_PER_PAGE = n →
      Cursor.insert d c row = .ok c) ∧
    (∀ c : Cursor, c.db = db → (c.row_num + 1) / ROWS_PER_PAGE = n →
      Cursor.advance d c = .aborted) := by
  have hio : get_page d db n = .ioErr := by
    unfold get_page
    rw [hn, hf]
  refine ⟨hio, ?_, ?_, ?_, ?_⟩
  · unfold insert_row_at
    rw [hio]
  · unfold get_row_at
    rw [hio]
  · intro c hc hr
    unfold Cursor.insert insert_row_at
    rw [hc, hr, hio]
  · intro c hc hr
    simp only [Cursor.advance]
    rw [hc, hr, hio]

theorem c5_error_propagation_witness :
    brokenDB.file = none ∧
    pagesLookup brokenDB.pager.pages 0 = none ∧
    get_page d0 brokenDB 0 = .ioErr ∧
    insert_row_at d0 brokenDB 0 0 ⟨1, "x"⟩ = .ioErr ∧
    Cursor.advance d0 (Cursor.new brokenDB 0) = .aborted :=
  ⟨rfl, rfl,
    (c5_error_propagation d0 brokenDB 0 0 ⟨1, "x"⟩ rfl rfl).1,
    (c5_error_propagation d0 brokenDB 0 0 ⟨1, "x"⟩ rfl rfl).2.1,
    (c5_error_propagation d0 brokenDB 0 0 ⟨1, "x"⟩ rfl rfl).2.2.2.2
      (Cursor.new brokenDB 0) rfl rfl⟩

/-- Claim C6 as stated is false on the code: a one-byte backing file is
zero-extended and read into a 4096-byte buffer that the codec rejects,
and the page-load path aborts (the unwrap inside Page::from_bytes)
instead of surfacing a recoverable corrupt-page error. -/
theorem c6_decode_abort_counterexample :
    d0 (readBuf [1] 0) = none ∧
    from_bytes d0 (readBuf [1] 0) = none ∧
    get_page d0 ⟨⟨[]⟩, some [1]⟩ 0 = .aborted ∧
    get_page d0 ⟨⟨[]⟩, some [1]⟩ 0 ≠ .ioErr := by
  refine ⟨rfl, rfl, rfl, ?_⟩
  intro h
  rw [show get_page d0 ⟨⟨[]⟩, some [1]⟩ 0 = Res.aborted from rfl] at h
  exact Res.noConfusion h

/-- Claim C6 (amended): when the codec fails on a buffer the page-load
path neither returns a recoverable error value nor substitutes a default
page: Page::from_bytes yields no page (the unwrap aborts the process),
and get_page on a page miss whose read buffer fails to decode aborts,
returning no page at all. -/
theorem c6_decode_failure_aborts (d : List Nat → Option (List Row))
    (b : List Nat) (pages : List (Nat × Page)) (f : List Nat) (n : Nat)
    (hb : d b = none) (hn : pagesLookup pages n = none)
    (hd : d (readBuf f n) = none) :
    from_bytes d b = none ∧
    get_page d ⟨⟨pages⟩, some f⟩ n = .aborted ∧
    (∀ p st, get_page d ⟨⟨pages⟩, some f⟩ n ≠ .ok (p, st)) := by
  have hg := get_page_decode_failure d pages f n hn hd
  refine ⟨by unfold from_bytes; rw [hb]; rfl, hg, ?_⟩
  intro p st h
  rw [hg] at h
  exact Res.noConfusion h

theorem c6_decode_failure_aborts_witness :
    d0 (readBuf [1] 0) = none ∧
    pagesLookup [] 0 = none ∧
    from_bytes d0 (readBuf [1] 0) = none ∧
    get_page d0 ⟨⟨[]⟩, some [1]⟩ 0 = .aborted :=
  ⟨rfl, rfl,
    (c6_decode_failure_aborts d0 (readBuf [1] 0) [] [1] 0 rfl rfl rfl).1,
    (c6_decode_failure_aborts d0 (readBuf [1] 0) [] [1] 0 rfl rfl rfl).2.1⟩

/-- Claim C7 as stated is false on the code: a cursor positioned past
the only stored row (and the data model has no next leaf anywhere) is
not in a terminal state — the read there reports absent, yet advance
still changes the cursor, incrementing row_num from 5 to 6. -/
theorem c7_no_terminal_state_counterexample :
    get_row_at d0 pastEndDB 0 5 = .ok (none, pastEndDB) ∧
    Cursor.advance d0 ⟨pastEndDB, 0, 5, false⟩ = .ok ⟨pastEndDB, 0, 6, false⟩ ∧
    (⟨pastEndDB, 0, 6, false⟩ : Cursor) ≠ ⟨pastEndDB, 0, 5, false⟩ := by
  refine ⟨rfl, rfl, ?_⟩
  intro hEq
  exact absurd (congrArg Cursor.row_num hEq) (by decide)

/-- Claim C7 (amended): the cursor has no terminal end-of-table state:
Cursor::new starts with end_of_table false, no code path ever writes the
flag, and every successful advance increments row_num and recomputes
page_num, so advance is never a no-op; reads past the stored rows report
absent through get_row_at while the cursor keeps moving. -/
theorem c7_advance_always_moves (d : List Nat → Option (List Row))
    (c c' : Cursor) (h : Cursor.advance d c = .ok c') :
    c'.row_num = c.row_num + 1 ∧
    c'.page_num = (c.row_num + 1) / ROWS_PER_PAGE ∧
    c'.end_of_table = c.end_of_table ∧
    c' ≠ c ∧
    (∀ (db : DB) (n : Nat), (Cursor.new db n).end_of_table = false) := by
  simp only [Cursor.advance] at h
  cases hg : get_page d c.db ((c.row_num + 1) / ROWS_PER_PAGE) with
  | ok pr =>
    obtain ⟨p, db1⟩ := pr
    rw [hg] at h
    change Res.ok (⟨db1, (c.row_num + 1) / ROWS_PER_PAGE, c.row_num + 1,
      c.end_of_table⟩ : Cursor) = Res.ok c' at h
    injection h with h1
    subst h1
    refine ⟨rfl, rfl, rfl, ?_, fun _ _ => rfl⟩
    intro hEq
    have hr := congrArg Cursor.row_num hEq
    simp at hr
  | ioErr =>
    rw [hg] at h
    exact Res.noConfusion h
  | aborted =>
    rw [hg] at h
    exact Res.noConfusion h

theorem c7_advance_always_moves_witness :
    Cursor.advance d0 ⟨pastEndDB, 0, 5, false⟩ = .ok ⟨pastEndDB, 0, 6, false⟩ ∧
    ((6 : Nat) = 5 + 1 ∧
      (0 : Nat) = (5 + 1) / ROWS_PER_PAGE ∧
      (false : Bool) = false ∧
      (⟨pastEndDB, 0, 6, false⟩ : Cursor) ≠ ⟨pastEndDB, 0, 5, false⟩ ∧
      ∀ (db : DB) (n : Nat), (Cursor.new db n).end_of_table = false) :=
  ⟨rfl, c7_advance_always_moves d0 ⟨pastEndDB, 0, 5, false⟩
    ⟨pastEndDB, 0, 6, false⟩ rfl⟩

/-- Claim C8 as stated is false on the code: ROWS_PER_PAGE divides 4096
by the 32-byte in-memory struct size, giving 128, while the on-disk
encoding of a Row is variable-sized — rows with names of 0 and 2 bytes
encode to 12 and 14 bytes — so no fixed encoded row size exists, and
even the minimal encoded row size would give floor(4096 / 12) = 341,
not 128. -/
theorem c8_capacity_counterexample :
    ROWS_PER_PAGE = 128 ∧
    bincodeRowSize ⟨1, ""⟩ = 12 ∧
    bincodeRowSize ⟨1, "ab"⟩ = 14 ∧
    bincodeRowSize ⟨1, ""⟩ ≠ bincodeRowSize ⟨1, "ab"⟩ ∧
    PAGE_SIZE / bincodeRowSize ⟨1, ""⟩ = 341 ∧
    ROWS_PER_PAGE ≠ PAGE_SIZE / bincodeRowSize ⟨1, ""⟩ :=
  ⟨rfl, rfl, rfl, by decide, rfl, by decide⟩

/-- Claim C8 (amended): the leaf capacity is computed from the in-memory
struct size, not from any on-disk encoded size: ROWS_PER_PAGE =
floor(PAGE_SIZE / rowMemSize) with rowMemSize = 32 bytes, hence 128 rows
and the floor characterisation 128 * 32 <= 4096 < 129 * 32, while the
on-disk encoded size of a Row varies from row to row. -/
theorem c8_capacity_from_struct_size :
    ROWS_PER_PAGE = PAGE_SIZE / rowMemSize ∧
    rowMemSize = 32 ∧
    ROWS_PER_PAGE = 128 ∧
    ROWS_PER_PAGE * rowMemSize ≤ PAGE_SIZE ∧
    PAGE_SIZE < (ROWS_PER_PAGE + 1) * rowMemSize ∧
    (∃ a b : Row, bincodeRowSize a ≠ bincodeRowSize b) :=
  ⟨rfl, rfl, rfl, by decide, by decide, ⟨1, ""⟩, ⟨1, "ab"⟩, by decide⟩
